import Mathlib

/-!
Verification of the rectangular-section flexural design/check engine
(`app.py`): effective depth, relative-moment coefficient, the quadratic
compression-depth solve, the single/double branch decision, and the
fixed-depth capacity check.  Floating-point quantities are modelled as
exact real numbers; the Python `ValueError` raised by the solver is
modelled with `Except CalcError`.
-/

/-- Models the single error the engine can raise: the Python
`ValueError("alpha_s 超出单筋截面适用范围 (0 ~ 0.5)")` from `_solve_xi`,
called `OutOfRangeError` in the specification. -/
inductive CalcError where
  | outOfRange : CalcError
deriving DecidableEq, Repr

/-- Embeds the `SectionResult` dataclass of `app.py`.  The `extra` dict is
modelled as an association list in the source's insertion order. -/
structure SectionResult where
  mode : String
  h0 : ℝ
  alpha_s : ℝ
  alpha_s_max : ℝ
  x : ℝ
  As : ℝ
  As_prime : ℝ
  M_capacity : ℝ
  extra : List (String × ℝ)

/-- `_calc_effective_depth(h, a_s)` from `app.py`. -/
noncomputable def _calc_effective_depth (h a_s : ℝ) : ℝ :=
  h - a_s

/-- `_alpha_s(M, b, h0, f_c, alpha1)` from `app.py`: the relative moment
coefficient, with `M` converted from kN·m to N·mm. -/
noncomputable def _alpha_s (M b h0 f_c alpha1 : ℝ) : ℝ :=
  (M * 1e6) / (alpha1 * f_c * b * h0 ^ 2)

/-- `_alpha_s_max(xi_b)` from `app.py`. -/
noncomputable def _alpha_s_max (xi_b : ℝ) : ℝ :=
  xi_b * (1 - 0.5 * xi_b)

/-- `_solve_xi(alpha_s)` from `app.py`: raises for `alpha_s` outside
`[0, 0.5]`, otherwise returns `1 - sqrt(disc)` with the discriminant
clamped at zero. -/
noncomputable def _solve_xi (alpha_s : ℝ) : Except CalcError ℝ :=
  if alpha_s < 0 ∨ alpha_s > 0.5 then
    .error CalcError.outOfRange
  else
    let disc := 1.0 - 2.0 * alpha_s
    let disc := if disc < 0 then 0.0 else disc
    .ok (1.0 - Real.sqrt disc)

/-- `design_doubly_reinforced(...)` from `app.py`.  The Python defaults are
`alpha1 = 1.0`, `xi_b = 0.518`; here both are always passed explicitly. -/
noncomputable def design_doubly_reinforced
    (b h a_s a_s_prime M f_c f_y f_y_prime alpha1 xi_b : ℝ) :
    Except CalcError SectionResult :=
  let h0 := _calc_effective_depth h a_s
  let alpha_s_val := _alpha_s M b h0 f_c alpha1
  let alpha_s_lim := _alpha_s_max xi_b
  if alpha_s_val ≤ alpha_s_lim then
    -- singly-reinforced branch
    match _solve_xi alpha_s_val with
    | .error e => .error e
    | .ok xi =>
      let x := xi * h0
      let As := alpha1 * f_c * b * x / f_y
      let M_capacity := alpha1 * f_c * b * x * (h0 - 0.5 * x) / 1e6
      .ok {
        mode := "single"
        h0 := h0
        alpha_s := alpha_s_val
        alpha_s_max := alpha_s_lim
        x := x
        As := As
        As_prime := 0.0
        M_capacity := M_capacity
        extra := [("xi", xi)] }
  else
    -- doubly-reinforced branch
    let xi := xi_b
    let x := xi * h0
    let Mc := alpha1 * f_c * b * x * (h0 - 0.5 * x)
    let M_total_Nmm := M * 1e6
    let delta_M := max (M_total_Nmm - Mc) 0.0
    let lever_arm_cs := h0 - a_s_prime
    let As_prime := delta_M / (f_y_prime * lever_arm_cs)
    let As1 := alpha1 * f_c * b * x / f_y
    let As := As1 + As_prime * f_y_prime / f_y
    let M_capacity := Mc + f_y_prime * As_prime * lever_arm_cs
    let M_capacity_kNm := M_capacity / 1e6
    .ok {
      mode := "double"
      h0 := h0
      alpha_s := alpha_s_val
      alpha_s_max := alpha_s_lim
      x := x
      As := As
      As_prime := As_prime
      M_capacity := M_capacity_kNm
      extra := [("xi", xi), ("M_c_kNm", Mc / 1e6), ("delta_M_kNm", delta_M / 1e6)] }

/-- `check_section_capacity(...)` from `app.py`.  The Python defaults are
`alpha1 = 1.0`, `xi_b = 0.518`; here both are always passed explicitly. -/
noncomputable def check_section_capacity
    (b h a_s a_s_prime A_s A_s_prime f_c f_y f_y_prime alpha1 xi_b : ℝ) :
    SectionResult :=
  let h0 := _calc_effective_depth h a_s
  let xi := xi_b
  let x := xi * h0
  let C_c := alpha1 * f_c * b * x
  let C_s := f_y_prime * A_s_prime
  let T_s := f_y * A_s
  let C_total := C_c + C_s
  let M_c := C_c * (h0 - 0.5 * x)
  let M_cs := C_s * (h0 - a_s_prime)
  let M_capacity := M_c + M_cs
  let M_capacity_kNm := M_capacity / 1e6
  let alpha_s_val := _alpha_s M_capacity_kNm b h0 f_c alpha1
  let alpha_s_lim := _alpha_s_max xi_b
  { mode := "check"
    h0 := h0
    alpha_s := alpha_s_val
    alpha_s_max := alpha_s_lim
    x := x
    As := A_s
    As_prime := A_s_prime
    M_capacity := M_capacity_kNm
    extra := [
      ("C_c", C_c), ("C_s", C_s), ("T_s", T_s), ("C_total", C_total),
      ("unbalanced_force", T_s - C_total),
      ("M_c_kNm", M_c / 1e6), ("M_cs_kNm", M_cs / 1e6), ("xi", xi)] }

/-! ### Helper lemmas -/

/- The singly-reinforced ceiling never exceeds 0.5, for every `xi_b`. -/
lemma alpha_s_max_le_half (xi_b : ℝ) : _alpha_s_max xi_b ≤ 0.5 := by
  simp only [_alpha_s_max]
  nlinarith [sq_nonneg (xi_b - 1)]

/- On `[0, 0.5]` the solver succeeds and returns the closed-form root. -/
lemma solve_xi_eq_ok (a : ℝ) (ha : 0 ≤ a) (ha2 : a ≤ 0.5) :
    _solve_xi a = .ok (1 - Real.sqrt (1 - 2 * a)) := by
  simp only [_solve_xi]
  rw [if_neg (by push_neg; exact ⟨ha, ha2⟩), if_neg (by push_neg; linarith)]
  norm_num

/- A successful solve forces the argument into `[0, 0.5]` and pins the root. -/
lemma solve_xi_ok_elim (a xi : ℝ) (h : _solve_xi a = .ok xi) :
    0 ≤ a ∧ a ≤ 0.5 ∧ xi = 1 - Real.sqrt (1 - 2 * a) := by
  simp only [_solve_xi] at h
  by_cases hc : a < 0 ∨ a > 0.5
  · rw [if_pos hc] at h
    exact absurd h (by simp)
  · push_neg at hc
    refine ⟨hc.1, hc.2, ?_⟩
    rw [if_neg (by push_neg; exact hc), if_neg (by push_neg; linarith [hc.2])] at h
    injection h with h
    rw [← h]
    norm_num

/-! ### Claim theorems -/

/-- Claim C3: the compression-depth solver `_solve_xi` fails with the
out-of-range error exactly when its argument is negative or exceeds 0.5;
it fails at 0.6 and at -0.1, and at 0.5 it succeeds with `xi = 1.0`. -/
theorem c3_solve_xi_range :
    (∀ a : ℝ, _solve_xi a = .error CalcError.outOfRange ↔ (a < 0 ∨ a > 0.5)) ∧
    _solve_xi 0.6 = .error CalcError.outOfRange ∧
    _solve_xi (-0.1) = .error CalcError.outOfRange ∧
    _solve_xi 0.5 = .ok 1.0 := by
  refine ⟨fun a => ?_, ?_, ?_, ?_⟩
  · constructor
    · intro h
      by_contra hc
      push_neg at hc
      rw [solve_xi_eq_ok a hc.1 hc.2] at h
      exact absurd h (by simp)
    · intro h
      simp only [_solve_xi]
      rw [if_pos h]
  · simp only [_solve_xi]
    rw [if_pos (by norm_num)]
  · simp only [_solve_xi]
    rw [if_pos (by norm_num)]
  · rw [solve_xi_eq_ok 0.5 (by norm_num) (by norm_num)]
    norm_num

/-- Claim C5 (counterexample): at the default `xi_b = 0.518` the ceiling is
not `0.3816`; the exact value is `0.383838`. -/
theorem c5_counterexample : _alpha_s_max 0.518 ≠ 0.3816 := by
  norm_num [_alpha_s_max]

/-- Claim C5 (amended): `_alpha_s_max` computes `xi_b * (1 - 0.5*xi_b)` from
`xi_b` alone, and at the default `xi_b = 0.518` it returns `0.383838`
exactly (not `0.3816`). -/
theorem c5_alpha_s_max_value :
    (∀ xi_b : ℝ, _alpha_s_max xi_b = xi_b * (1 - 0.5 * xi_b)) ∧
    _alpha_s_max 0.518 = 0.383838 := by
  exact ⟨fun xi_b => rfl, by norm_num [_alpha_s_max]⟩

/-- Claim C10: `check_section_capacity` is total — it never signals the
out-of-range error (it never calls `_solve_xi`) and always returns a
`SectionResult` with mode `"check"`. -/
theorem c10_check_total
    (b h a_s a_s_prime A_s A_s_prime f_c f_y f_y_prime alpha1 xi_b : ℝ)
    (hden : alpha1 * f_c * b * (h - a_s) ^ 2 ≠ 0) :
    (check_section_capacity b h a_s a_s_prime A_s A_s_prime f_c f_y f_y_prime
      alpha1 xi_b).mode = "check" := rfl

/-- Claim C10 witness at a concrete input. -/
theorem c10_witness :
    (1 : ℝ) * 1 * 1 * ((2 : ℝ) - 1) ^ 2 ≠ 0 ∧
    (check_section_capacity 1 2 1 0 0 0 1 1 1 1 0.518).mode = "check" :=
  ⟨by norm_num, c10_check_total 1 2 1 0 0 0 1 1 1 1 0.518 (by norm_num)⟩

/-- Claim C1 (counterexample): with a negative design moment the relative
moment coefficient is `-0.1 <= alpha_s_max`, yet `design` does not return a
singly-reinforced result — the solver raises the out-of-range error. -/
theorem c1_counterexample :
    _alpha_s (-0.0000001) 1 1 1 1 ≤ _alpha_s_max 0.518 ∧
    design_doubly_reinforced 1 2 1 0.5 (-0.0000001) 1 1 1 1 0.518 =
      .error CalcError.outOfRange := by
  constructor
  · norm_num [_alpha_s, _alpha_s_max]
  · simp only [design_doubly_reinforced, _calc_effective_depth]
    rw [if_pos (by norm_num [_alpha_s, _alpha_s_max])]
    have hs : _solve_xi (_alpha_s (-0.0000001) 1 (2 - 1) 1 1) =
        .error CalcError.outOfRange := by
      simp only [_solve_xi]
      rw [if_pos (by norm_num [_alpha_s])]
    rw [hs]

/-- Claim C1 (amended): for every input with `0 <= alpha_s` and
`alpha_s <= alpha_s_max` (including exact equality at the boundary),
`design` takes the singly-reinforced branch and returns a result with
mode `"single"`, `As_prime = 0`, and `x = (1 - sqrt(1 - 2*alpha_s)) * h0`. -/
theorem c1_single_branch
    (b h a_s a_s_prime M f_c f_y f_y_prime alpha1 xi_b : ℝ)
    (ha : 0 ≤ _alpha_s M b (h - a_s) f_c alpha1)
    (hle : _alpha_s M b (h - a_s) f_c alpha1 ≤ _alpha_s_max xi_b) :
    ∃ r, design_doubly_reinforced b h a_s a_s_prime M f_c f_y f_y_prime alpha1 xi_b
        = .ok r ∧
      r.mode = "single" ∧ r.As_prime = 0 ∧
      r.x = (1 - Real.sqrt (1 - 2 * _alpha_s M b (h - a_s) f_c alpha1)) * (h - a_s) := by
  have h05 : _alpha_s M b (h - a_s) f_c alpha1 ≤ 0.5 :=
    hle.trans (alpha_s_max_le_half xi_b)
  simp only [design_doubly_reinforced, _calc_effective_depth]
  rw [if_pos hle, solve_xi_eq_ok _ ha h05]
  exact ⟨_, rfl, rfl, by norm_num, rfl⟩

/-- Claim C1 witness at a concrete input (`alpha_s = 0.375`). -/
theorem c1_witness :
    0 ≤ _alpha_s 0.000000375 1 (2 - 1) 1 1 ∧
    _alpha_s 0.000000375 1 (2 - 1) 1 1 ≤ _alpha_s_max 0.518 ∧
    ∃ r, design_doubly_reinforced 1 2 1 0.5 0.000000375 1 1 1 1 0.518 = .ok r ∧
      r.mode = "single" ∧ r.As_prime = 0 ∧
      r.x = (1 - Real.sqrt (1 - 2 * _alpha_s 0.000000375 1 (2 - 1) 1 1)) * (2 - 1) :=
  ⟨by norm_num [_alpha_s], by norm_num [_alpha_s, _alpha_s_max],
    c1_single_branch 1 2 1 0.5 0.000000375 1 1 1 1 0.518
      (by norm_num [_alpha_s]) (by norm_num [_alpha_s, _alpha_s_max])⟩

/-- Claim C2: for every input with `alpha_s > alpha_s_max`, `design` takes
the doubly-reinforced branch and returns mode `"double"`,
`x = xi_b * h0` exactly, `As_prime = delta_M / (f_y_prime * (h0 - a_s_prime))`
with `delta_M = max(M*1e6 - Mc, 0)`, and
`As = alpha1*f_c*b*x/f_y + As_prime*f_y_prime/f_y`. -/
theorem c2_double_branch
    (b h a_s a_s_prime M f_c f_y f_y_prime alpha1 xi_b : ℝ)
    (hgt : _alpha_s M b (h - a_s) f_c alpha1 > _alpha_s_max xi_b) :
    ∃ r, design_doubly_reinforced b h a_s a_s_prime M f_c f_y f_y_prime alpha1 xi_b
        = .ok r ∧
      r.mode = "double" ∧
      r.x = xi_b * (h - a_s) ∧
      r.As_prime =
        max (M * 1e6 -
            alpha1 * f_c * b * (xi_b * (h - a_s)) *
              ((h - a_s) - 0.5 * (xi_b * (h - a_s)))) 0 /
          (f_y_prime * ((h - a_s) - a_s_prime)) ∧
      r.As = alpha1 * f_c * b * (xi_b * (h - a_s)) / f_y +
        r.As_prime * f_y_prime / f_y := by
  simp only [design_doubly_reinforced, _calc_effective_depth]
  rw [if_neg (not_le.mpr hgt)]
  exact ⟨_, rfl, rfl, rfl, by norm_num, rfl⟩

/-- Claim C2 witness at a concrete input (`alpha_s = 1 > 0.383838`). -/
theorem c2_witness :
    _alpha_s 0.000001 1 (2 - 1) 1 1 > _alpha_s_max 0.518 ∧
    ∃ r, design_doubly_reinforced 1 2 1 0.5 0.000001 1 1 1 1 0.518 = .ok r ∧
      r.mode = "double" ∧
      r.x = 0.518 * (2 - 1) ∧
      r.As_prime =
        max ((0.000001 : ℝ) * 1e6 -
            1 * 1 * 1 * (0.518 * (2 - 1)) * ((2 - 1) - 0.5 * (0.518 * (2 - 1)))) 0 /
          (1 * ((2 - 1) - 0.5)) ∧
      r.As = 1 * 1 * 1 * (0.518 * (2 - 1)) / 1 + r.As_prime * 1 / 1 :=
  ⟨by norm_num [_alpha_s, _alpha_s_max],
    c2_double_branch 1 2 1 0.5 0.000001 1 1 1 1 0.518
      (by norm_num [_alpha_s, _alpha_s_max])⟩

/-- Claim C4 (counterexample): `design` itself can signal the out-of-range
error — a negative design moment makes `alpha_s = -1`, the singly-reinforced
branch is taken, and the solver fails. -/
theorem c4_counterexample :
    design_doubly_reinforced 1 2 1 0.5 (-0.000001) 1 1 1 1 0.518 =
      .error CalcError.outOfRange := by
  simp only [design_doubly_reinforced, _calc_effective_depth]
  rw [if_pos (by norm_num [_alpha_s, _alpha_s_max])]
  have hs : _solve_xi (_alpha_s (-0.000001) 1 (2 - 1) 1 1) =
      .error CalcError.outOfRange := by
    simp only [_solve_xi]
    rw [if_pos (by norm_num [_alpha_s])]
  rw [hs]

/-- Claim C4 (amended): whenever the singly-reinforced branch is taken with
a nonnegative `alpha_s`, the `alpha_s` passed to the solver satisfies
`0 <= alpha_s <= 0.5` (because `alpha_s_max <= 0.5` for every `xi_b`), so
for every input with `0 <= alpha_s` the solver's error branch is
unreachable and `design` returns a result. -/
theorem c4_no_error_for_nonneg
    (b h a_s a_s_prime M f_c f_y f_y_prime alpha1 xi_b : ℝ)
    (ha : 0 ≤ _alpha_s M b (h - a_s) f_c alpha1) :
    (_alpha_s M b (h - a_s) f_c alpha1 ≤ _alpha_s_max xi_b →
      _alpha_s M b (h - a_s) f_c alpha1 ≤ 0.5) ∧
    ∃ r, design_doubly_reinforced b h a_s a_s_prime M f_c f_y f_y_prime alpha1 xi_b
      = .ok r := by
  refine ⟨fun hle => hle.trans (alpha_s_max_le_half xi_b), ?_⟩
  by_cases hle : _alpha_s M b (h - a_s) f_c alpha1 ≤ _alpha_s_max xi_b
  · simp only [design_doubly_reinforced, _calc_effective_depth]
    rw [if_pos hle, solve_xi_eq_ok _ ha (hle.trans (alpha_s_max_le_half xi_b))]
    exact ⟨_, rfl⟩
  · simp only [design_doubly_reinforced, _calc_effective_depth]
    rw [if_neg hle]
    exact ⟨_, rfl⟩

/-- Claim C4 witness at a concrete input (`alpha_s = 0`). -/
theorem c4_witness :
    0 ≤ _alpha_s 0 1 (2 - 1) 1 1 ∧
    ((_alpha_s 0 1 (2 - 1) 1 1 ≤ _alpha_s_max 0.518 →
        _alpha_s 0 1 (2 - 1) 1 1 ≤ 0.5) ∧
      ∃ r, design_doubly_reinforced 1 2 1 0.5 0 1 1 1 1 0.518 = .ok r) :=
  ⟨by norm_num [_alpha_s],
    c4_no_error_for_nonneg 1 2 1 0.5 0 1 1 1 1 0.518 (by norm_num [_alpha_s])⟩

/-- Claim C6: for every input, `check_section_capacity` uses the fixed
compression depth `x = xi_b * h0`, returns
`M_capacity = (C_c*(h0 - x/2) + C_s*(h0 - a_s_prime)) / 1e6` with
`C_c = alpha1*f_c*b*x` and `C_s = f_y_prime*As_prime`, and reports
`unbalanced_force = T_s - C_c - f_y_prime*As_prime` with `T_s = f_y*As`. -/
theorem c6_check_formulas
    (b h a_s a_s_prime A_s A_s_prime f_c f_y f_y_prime alpha1 xi_b : ℝ) :
    (check_section_capacity b h a_s a_s_prime A_s A_s_prime f_c f_y f_y_prime
        alpha1 xi_b).x = xi_b * (h - a_s) ∧
    (check_section_capacity b h a_s a_s_prime A_s A_s_prime f_c f_y f_y_prime
        alpha1 xi_b).M_capacity =
      (alpha1 * f_c * b * (xi_b * (h - a_s)) *
          ((h - a_s) - (xi_b * (h - a_s)) / 2) +
        f_y_prime * A_s_prime * ((h - a_s) - a_s_prime)) / 1e6 ∧
    (check_section_capacity b h a_s a_s_prime A_s A_s_prime f_c f_y f_y_prime
        alpha1 xi_b).extra.lookup "unbalanced_force" =
      some (f_y * A_s - alpha1 * f_c * b * (xi_b * (h - a_s)) -
        f_y_prime * A_s_prime) := by
  refine ⟨rfl, ?_, ?_⟩
  · simp only [check_section_capacity, _calc_effective_depth]
    ring_nf
  · simp only [check_section_capacity, _calc_effective_depth, List.lookup]
    norm_num
    rw [show ("unbalanced_force" == "C_c") = false from rfl,
      show ("unbalanced_force" == "C_s") = false from rfl,
      show ("unbalanced_force" == "T_s") = false from rfl,
      show ("unbalanced_force" == "C_total") = false from rfl]
    ring_nf

/-- Claim C7: in the doubly-reinforced branch the residual moment is clamped
at zero, so whenever `f_y_prime * (h0 - a_s_prime) > 0` the returned
`As_prime` is nonnegative. -/
theorem c7_as_prime_nonneg
    (b h a_s a_s_prime M f_c f_y f_y_prime alpha1 xi_b : ℝ)
    (hgt : _alpha_s M b (h - a_s) f_c alpha1 > _alpha_s_max xi_b)
    (hpos : 0 < f_y_prime * ((h - a_s) - a_s_prime)) :
    ∃ r, design_doubly_reinforced b h a_s a_s_prime M f_c f_y f_y_prime alpha1 xi_b
        = .ok r ∧ 0 ≤ r.As_prime := by
  simp only [design_doubly_reinforced, _calc_effective_depth]
  rw [if_neg (not_le.mpr hgt)]
  refine ⟨_, rfl, div_nonneg ?_ hpos.le⟩
  simp only [show (0.0 : ℝ) = 0 from by norm_num]
  exact le_max_right _ _

/-- Claim C7 witness at a concrete input (`alpha_s = 2`, moment above `Mc`). -/
theorem c7_witness :
    _alpha_s 0.000002 1 (2 - 1) 1 1 > _alpha_s_max 0.518 ∧
    (0 : ℝ) < 1 * ((2 - 1) - 0.25) ∧
    ∃ r, design_doubly_reinforced 1 2 1 0.25 0.000002 1 1 1 1 0.518 = .ok r ∧
      0 ≤ r.As_prime :=
  ⟨by norm_num [_alpha_s, _alpha_s_max], by norm_num,
    c7_as_prime_nonneg 1 2 1 0.25 0.000002 1 1 1 1 0.518
      (by norm_num [_alpha_s, _alpha_s_max]) (by norm_num)⟩

/- Every successful `design` result carries `h0 = h - a_s`. -/
lemma design_h0_ok (b h a_s a_s_prime M f_c f_y f_y_prime alpha1 xi_b : ℝ)
    (r : SectionResult)
    (hr : design_doubly_reinforced b h a_s a_s_prime M f_c f_y f_y_prime alpha1 xi_b
      = .ok r) :
    r.h0 = h - a_s := by
  simp only [design_doubly_reinforced, _calc_effective_depth] at hr
  split at hr
  · split at hr
    · exact absurd hr (by simp)
    · injection hr with hr
      rw [← hr]
  · injection hr with hr
    rw [← hr]

/-- Claim C8 (counterexample): the `h0` field of a returned result is not
always positive — with `a_s > h` the result of `check` has `h0 < 0`. -/
theorem c8_counterexample :
    (check_section_capacity 1 1 2 0 0 0 1 1 1 1 0.518).h0 < 0 := by
  norm_num [check_section_capacity, _calc_effective_depth]

/-- Claim C8 (amended): every result returned by `design` or `check` has
`h0 = h - a_s`, and `h0` is positive whenever `a_s < h` (positivity is not
guaranteed for arbitrary inputs, since no validation is performed). -/
theorem c8_h0_invariant
    (b h a_s a_s_prime M A_s A_s_prime f_c f_y f_y_prime alpha1 xi_b : ℝ)
    (hlt : a_s < h) :
    (design_doubly_reinforced b h a_s a_s_prime M f_c f_y f_y_prime alpha1
        xi_b).map SectionResult.h0 =
      (design_doubly_reinforced b h a_s a_s_prime M f_c f_y f_y_prime alpha1
        xi_b).map (fun _ => h - a_s) ∧
    (check_section_capacity b h a_s a_s_prime A_s A_s_prime f_c f_y f_y_prime
        alpha1 xi_b).h0 = h - a_s ∧
    0 < (check_section_capacity b h a_s a_s_prime A_s A_s_prime f_c f_y f_y_prime
        alpha1 xi_b).h0 := by
  refine ⟨?_, rfl, ?_⟩
  · cases hd : design_doubly_reinforced b h a_s a_s_prime M f_c f_y f_y_prime
        alpha1 xi_b with
    | error e => rfl
    | ok r =>
      simp only [Except.map]
      rw [design_h0_ok b h a_s a_s_prime M f_c f_y f_y_prime alpha1 xi_b r hd]
  · show 0 < h - a_s
    linarith

/-- Claim C8 witness at a concrete input with `a_s < h`. -/
theorem c8_witness :
    (1 : ℝ) < 2 ∧
    ((design_doubly_reinforced 1 2 1 0.5 0 1 1 1 1 0.518).map SectionResult.h0 =
      (design_doubly_reinforced 1 2 1 0.5 0 1 1 1 1 0.518).map
        (fun _ => (2 : ℝ) - 1) ∧
    (check_section_capacity 1 2 1 0.5 0 0 1 1 1 1 0.518).h0 = 2 - 1 ∧
    0 < (check_section_capacity 1 2 1 0.5 0 0 1 1 1 1 0.518).h0) :=
  ⟨by norm_num,
    c8_h0_invariant 1 2 1 0.5 0 0 0 1 1 1 1 0.518 (by norm_num)⟩

/-- Claim C9: round-trip in exact arithmetic — for every input with positive
`b`, `h0`, `f_c`, `f_y`, `f_y_prime`, `h0 - a_s_prime` and `alpha1` on which
`design` returns a result, the returned `M_capacity` equals the input design
moment `M` exactly, in both branches. -/
theorem c9_roundtrip
    (b h a_s a_s_prime M f_c f_y f_y_prime alpha1 xi_b : ℝ) (r : SectionResult)
    (hb : 0 < b) (hh0 : 0 < h - a_s) (hfc : 0 < f_c) (hfy : 0 < f_y)
    (hfyp : 0 < f_y_prime) (hlever : 0 < (h - a_s) - a_s_prime) (ha1 : 0 < alpha1)
    (hr : design_doubly_reinforced b h a_s a_s_prime M f_c f_y f_y_prime alpha1 xi_b
      = .ok r) :
    r.M_capacity = M := by
  have hD : 0 < alpha1 * f_c * b * (h - a_s) ^ 2 := by positivity
  simp only [design_doubly_reinforced, _calc_effective_depth, _alpha_s,
    _alpha_s_max] at hr
  split at hr
  · -- singly-reinforced branch
    split at hr
    · exact absurd hr (by simp)
    · rename_i xi heq
      obtain ⟨ha0, ha5, hxi⟩ := solve_xi_ok_elim _ _ heq
      subst hxi
      injection hr with hr
      subst hr
      dsimp only
      have hs2 : Real.sqrt (1 - 2 * (M * 1e6 / (alpha1 * f_c * b * (h - a_s) ^ 2))) ^ 2
          = 1 - 2 * (M * 1e6 / (alpha1 * f_c * b * (h - a_s) ^ 2)) :=
        Real.sq_sqrt (by linarith)
      have hDiv : M * 1e6 / (alpha1 * f_c * b * (h - a_s) ^ 2) *
          (alpha1 * f_c * b * (h - a_s) ^ 2) = M * 1e6 :=
        div_mul_cancel₀ _ hD.ne'
      rw [div_eq_iff (by norm_num : (1e6 : ℝ) ≠ 0)]
      linear_combination (-(1 / 2) * (alpha1 * f_c * b * (h - a_s) ^ 2)) * hs2 + hDiv
  · -- doubly-reinforced branch
    rename_i hgt
    injection hr with hr
    subst hr
    dsimp only
    have hlim : xi_b * (1 - 0.5 * xi_b) * (alpha1 * f_c * b * (h - a_s) ^ 2)
        < M * 1e6 := (lt_div_iff hD).mp (lt_of_not_le hgt)
    have hmax : max (M * 1e6 - alpha1 * f_c * b * (xi_b * (h - a_s)) *
          ((h - a_s) - 0.5 * (xi_b * (h - a_s)))) 0.0
        = M * 1e6 - alpha1 * f_c * b * (xi_b * (h - a_s)) *
          ((h - a_s) - 0.5 * (xi_b * (h - a_s))) := by
      apply max_eq_left
      nlinarith [hlim]
    rw [hmax]
    have hfl : f_y_prime * ((h - a_s) - a_s_prime) ≠ 0 := (mul_pos hfyp hlever).ne'
    field_simp
    ring

/-- Claim C9 witness at a concrete input (`M = 0`, singly-reinforced). -/
theorem c9_witness :
    (0 : ℝ) < 1 ∧ (0 : ℝ) < 2 - 1 ∧ (0 : ℝ) < 1 ∧ (0 : ℝ) < 1 ∧ (0 : ℝ) < 1 ∧
    (0 : ℝ) < (2 - 1) - 0.5 ∧ (0 : ℝ) < 1 ∧
    design_doubly_reinforced 1 2 1 0.5 0 1 1 1 1 0.518 =
      .ok ⟨"single", 1, 0, 0.383838, 0, 0, 0, 0, [("xi", 0)]⟩ ∧
    (⟨"single", 1, 0, 0.383838, 0, 0, 0, 0, [("xi", 0)]⟩ :
      SectionResult).M_capacity = 0 := by
  have hr : design_doubly_reinforced 1 2 1 0.5 0 1 1 1 1 0.518 =
      .ok ⟨"single", 1, 0, 0.383838, 0, 0, 0, 0, [("xi", 0)]⟩ := by
    simp only [design_doubly_reinforced, _calc_effective_depth]
    rw [if_pos (by norm_num [_alpha_s, _alpha_s_max]),
      solve_xi_eq_ok _ (by norm_num [_alpha_s]) (by norm_num [_alpha_s])]
    norm_num [_alpha_s, _alpha_s_max, Real.sqrt_one]
  exact ⟨by norm_num, by norm_num, by norm_num, by norm_num, by norm_num,
    by norm_num, by norm_num, hr,
    c9_roundtrip 1 2 1 0.5 0 1 1 1 1 0.518 _ (by norm_num) (by norm_num)
      (by norm_num) (by norm_num) (by norm_num) (by norm_num) (by norm_num) hr⟩
